import Mathlib

/-!
Verification development for the Oculo repository.

The Go sources of the storage layer (internal/database/store.go), the
ingestion daemon (internal/ingestion) and the analysis engine
(internal/analysis/analyzer.go) are shallowly embedded below.  Machine
integers (int, int64) are modelled as Int, float64 values as exact
rationals (or, where a square root occurs, as elements of an arbitrary
linear ordered field instantiated at the reals), byte strings as String
lists, SQLite errors as an abstract failure oracle, and Go channels as
explicit lists with capacities.
-/

namespace Oculo

/-! ## Domain models (internal/database/store.go) -/

/-- Trace mirrors the Go struct database.Trace.  The metadata map is
carried in its JSON-marshalled column form, which is all the store ever
touches. -/
structure Trace where
  traceId : String
  agentName : String
  startTime : Int
  endTime : Option Int
  status : String
  metadata : Option String
  deriving Repr, DecidableEq, Inhabited

/-- Span mirrors the Go struct database.Span.  The float64 temperature is
carried as a rational; it is never computed with. -/
structure Span where
  spanId : String
  traceId : String
  parentSpanId : Option String
  operationType : String
  operationName : String
  startTime : Int
  durationMs : Int
  prompt : Option String
  completion : Option String
  promptTokens : Int
  completionTokens : Int
  model : Option String
  temperature : Option Rat
  metadata : Option String
  status : String
  errorMessage : Option String
  deriving Repr, DecidableEq, Inhabited

/-- MemoryEvent mirrors the Go struct database.MemoryEvent.  The Go field
Namespace is called nspace here because namespace is a Lean keyword. -/
structure MemoryEvent where
  eventId : String
  spanId : String
  timestamp : Int
  operation : String
  key : String
  oldValue : Option String
  newValue : Option String
  nspace : String
  deriving Repr, DecidableEq, Inhabited

/-- ToolCall mirrors the Go struct database.ToolCall. -/
structure ToolCall where
  callId : Int
  spanId : String
  toolName : String
  argumentsJson : Option String
  resultJson : Option String
  success : Bool
  latencyMs : Int
  deriving Repr, DecidableEq, Inhabited

/-- PendingRow mirrors one row of the pending_writes table
(write_id INTEGER PRIMARY KEY AUTOINCREMENT, payload, status, created_at,
committed_at). -/
structure PendingRow where
  writeId : Int
  payload : List Nat
  status : String
  createdAt : Int
  committedAt : Option Int
  deriving Repr, DecidableEq, Inhabited

/-- StoreState is the visible database state: the five tables plus the
AUTOINCREMENT cursor of pending_writes. -/
structure StoreState where
  traces : List Trace
  spans : List Span
  memoryEvents : List MemoryEvent
  toolCalls : List ToolCall
  pendingRows : List PendingRow
  nextWriteId : Int
  deriving Repr, DecidableEq, Inhabited

/-- Oracle abstracts SQLite write failures (I/O errors, constraint
violations).  Each predicate says whether the corresponding statement
fails when executed on the given argument; a transactional batch either
fully commits or leaves the tables unchanged, which the model reflects by
deciding failure on the whole list. -/
structure Oracle where
  traceFails : Trace → Bool
  spanFails : Span → Bool
  memFails : MemoryEvent → Bool
  toolFails : ToolCall → Bool
  spanBatchFails : List Span → Bool
  memBatchFails : List MemoryEvent → Bool

/-- allOk is the oracle under which every write succeeds. -/
def allOk : Oracle :=
  ⟨fun _ => false, fun _ => false, fun _ => false, fun _ => false,
   fun _ => false, fun _ => false⟩

/-! ### Upsert semantics

The prepared statements in store.go (prepareStatements) implement the
ON CONFLICT clauses embedded here. -/

/-- upsertTraceRow is the ON CONFLICT(trace_id) DO UPDATE clause of the
InsertTrace statement: end_time = COALESCE(excluded.end_time, old),
status = excluded.status, metadata = COALESCE(excluded.metadata, old). -/
def upsertTraceRow (old new : Trace) : Trace :=
  { old with
    endTime := match new.endTime with
      | some v => some v
      | none => old.endTime
    status := new.status
    metadata := match new.metadata with
      | some v => some v
      | none => old.metadata }

/-- upsertSpanRow is the ON CONFLICT(span_id) DO UPDATE clause of the
InsertSpan statement: duration_ms, completion (COALESCE of the excluded
value with the stored one), completion_tokens, status and error_message
take the excluded values; every other column keeps the stored value. -/
def upsertSpanRow (old new : Span) : Span :=
  { old with
    durationMs := new.durationMs
    completion := match new.completion with
      | some v => some v
      | none => old.completion
    completionTokens := new.completionTokens
    status := new.status
    errorMessage := new.errorMessage }

/-- upsertTraceTable inserts a trace row, applying the upsert clause when
a row with the same primary key trace_id is already present. -/
def upsertTraceTable : List Trace → Trace → List Trace
  | [], t => [t]
  | r :: rs, t =>
    if r.traceId = t.traceId then upsertTraceRow r t :: rs
    else r :: upsertTraceTable rs t

/-- upsertSpanTable inserts a span row, applying the upsert clause when a
row with the same primary key span_id is already present. -/
def upsertSpanTable : List Span → Span → List Span
  | [], s => [s]
  | r :: rs, s =>
    if r.spanId = s.spanId then upsertSpanRow r s :: rs
    else r :: upsertSpanTable rs s

/-! ### Store operations (success paths combined with the oracle) -/

/-- insertTrace models DBService.InsertTrace. -/
def insertTrace (o : Oracle) (st : StoreState) (t : Trace) :
    Except String StoreState :=
  if o.traceFails t then .error ("inserting trace " ++ t.traceId)
  else .ok { st with traces := upsertTraceTable st.traces t }

/-- insertSpan models DBService.InsertSpan. -/
def insertSpan (o : Oracle) (st : StoreState) (s : Span) :
    Except String StoreState :=
  if o.spanFails s then .error ("inserting span " ++ s.spanId)
  else .ok { st with spans := upsertSpanTable st.spans s }

/-- insertMemoryEvent models DBService.InsertMemoryEvent (plain insert,
no upsert clause). -/
def insertMemoryEvent (o : Oracle) (st : StoreState) (e : MemoryEvent) :
    Except String StoreState :=
  if o.memFails e then .error ("inserting memory event " ++ e.eventId)
  else .ok { st with memoryEvents := st.memoryEvents ++ [e] }

/-- insertToolCall models DBService.InsertToolCall (plain insert). -/
def insertToolCall (o : Oracle) (st : StoreState) (c : ToolCall) :
    Except String StoreState :=
  if o.toolFails c then .error ("inserting tool call for span " ++ c.spanId)
  else .ok { st with toolCalls := st.toolCalls ++ [c] }

/-- batchInsertSpans models DBService.BatchInsertSpans: the whole list is
applied inside one transaction, so on failure the table is unchanged. -/
def batchInsertSpans (o : Oracle) (st : StoreState) (l : List Span) :
    Except String StoreState :=
  if o.spanBatchFails l then .error "batch inserting spans"
  else .ok { st with spans := l.foldl upsertSpanTable st.spans }

/-- batchInsertMemoryEvents models DBService.BatchInsertMemoryEvents. -/
def batchInsertMemoryEvents (o : Oracle) (st : StoreState)
    (l : List MemoryEvent) : Except String StoreState :=
  if o.memBatchFails l then .error "batch inserting memory events"
  else .ok { st with memoryEvents := st.memoryEvents ++ l }

/-! ### Pending-write log (crash recovery) -/

/-- writePendingPayload models DBService.WritePendingPayload: one row is
inserted with status pending and the fresh AUTOINCREMENT id is
returned. -/
def writePendingPayload (st : StoreState) (now : Int) (p : List Nat) :
    Int × StoreState :=
  (st.nextWriteId,
   { st with
     pendingRows := st.pendingRows ++
       [{ writeId := st.nextWriteId, payload := p, status := "pending",
          createdAt := now, committedAt := none }]
     nextWriteId := st.nextWriteId + 1 })

/-- commitPendingPayload models DBService.CommitPendingPayload: the row
with the given write_id gets status committed and a committed_at time. -/
def commitPendingPayload (st : StoreState) (now : Int) (id : Int) :
    StoreState :=
  { st with
    pendingRows := st.pendingRows.map fun r =>
      if r.writeId = id then
        { r with status := "committed", committedAt := some now }
      else r }

/-- pendingLE orders pending rows by write_id ascending, the ORDER BY of
GetPendingPayloads. -/
def pendingLE (a b : PendingRow) : Prop := a.writeId ≤ b.writeId

instance : DecidableRel pendingLE := fun a b =>
  inferInstanceAs (Decidable (a.writeId ≤ b.writeId))

instance : IsTotal PendingRow pendingLE :=
  ⟨fun a b => le_total a.writeId b.writeId⟩

instance : IsTrans PendingRow pendingLE :=
  ⟨fun _ _ _ hab hbc => le_trans hab hbc⟩

/-- getPendingPayloads models DBService.GetPendingPayloads: the rows with
status pending, ordered by write_id ascending. -/
def getPendingPayloads (st : StoreState) : List PendingRow :=
  (st.pendingRows.filter fun r => r.status = "pending").insertionSort
    pendingLE

/-- WFStore captures what the pending_writes primary key guarantees: the
write ids on file are pairwise distinct and below the AUTOINCREMENT
cursor. -/
def WFStore (st : StoreState) : Prop :=
  (st.pendingRows.map PendingRow.writeId).Nodup ∧
  ∀ r ∈ st.pendingRows, r.writeId < st.nextWriteId

/-- emptyStore is a fresh database. -/
def emptyStore : StoreState :=
  { traces := [], spans := [], memoryEvents := [], toolCalls := [],
    pendingRows := [], nextWriteId := 1 }

/-! ## Ingester model (internal/ingestion)

The three Go channels are lists together with their capacities
(BatchSize for traceChan, 2 times BatchSize for spanChan and
memoryEventChan, see NewDaemonIngester).  The atomic counters are plain
integers because the model is sequential. -/

/-- Metrics mirrors ingestion.IngestionMetrics minus the uptime gauge. -/
structure Metrics where
  tracesIngested : Int
  spansIngested : Int
  memoryEvents : Int
  errorCount : Int
  batchesCommitted : Int
  deriving Repr, DecidableEq, Inhabited

/-- zeroMetrics is the state of the counters at daemon start. -/
def zeroMetrics : Metrics := ⟨0, 0, 0, 0, 0⟩

/-- BatchMessage mirrors ingestion.BatchMessage. -/
structure BatchMessage where
  traces : List Trace
  spans : List Span
  memoryEvents : List MemoryEvent
  toolCalls : List ToolCall
  deriving Repr, DecidableEq, Inhabited

/-- IngState is the state touched by processMessage: the three bounded
queues, the store and the counters.  batchSize is config.BatchSize. -/
structure IngState where
  batchSize : Nat
  traceQ : List Trace
  spanQ : List Span
  memQ : List MemoryEvent
  store : StoreState
  metrics : Metrics
  deriving Repr, DecidableEq, Inhabited

/-- Msg is a decoded wire message: for each typed payload the Except
carries the result of json.Unmarshal, and unknown covers any type byte
other than 0x01 to 0x04. -/
inductive Msg where
  | trace (p : Except Unit Trace)
  | span (p : Except Unit Span)
  | memoryEvent (p : Except Unit MemoryEvent)
  | batch (p : Except Unit BatchMessage)
  | unknown (b : Nat)
  deriving Repr, Inhabited

/-- insertTracesLoop is the first stage of processBatch: traces are
inserted one by one with upsert semantics, stopping at the first
error. -/
def insertTracesLoop (o : Oracle) :
    List Trace → StoreState → Metrics → Option String × StoreState × Metrics
  | [], st, m => (none, st, m)
  | t :: ts, st, m =>
    match insertTrace o st t with
    | .error e => (some ("batch trace insert: " ++ e), st, m)
    | .ok st1 =>
      insertTracesLoop o ts st1 { m with tracesIngested := m.tracesIngested + 1 }

/-- insertToolCallsLoop is the last stage of processBatch: tool calls are
inserted one by one, stopping at the first error. -/
def insertToolCallsLoop (o : Oracle) :
    List ToolCall → StoreState → Metrics → Option String × StoreState × Metrics
  | [], st, m => (none, st, m)
  | c :: cs, st, m =>
    match insertToolCall o st c with
    | .error e => (some ("batch tool call insert: " ++ e), st, m)
    | .ok st1 => insertToolCallsLoop o cs st1 m

/-- processBatch models DaemonIngester.processBatch: traces one by one,
then the spans as one transactional batch, then the memory events as one
transactional batch, then the tool calls one by one; the first error is
returned and stops further stages. -/
def processBatch (o : Oracle) (st : StoreState) (m : Metrics)
    (b : BatchMessage) : Option String × StoreState × Metrics :=
  match insertTracesLoop o b.traces st m with
  | (some e, st1, m1) => (some e, st1, m1)
  | (none, st1, m1) =>
    let afterSpans : Option String × StoreState × Metrics :=
      if b.spans.length > 0 then
        match batchInsertSpans o st1 b.spans with
        | .error e => (some ("batch span insert: " ++ e), st1, m1)
        | .ok st2 =>
          (none, st2,
           { m1 with spansIngested := m1.spansIngested + b.spans.length })
      else (none, st1, m1)
    match afterSpans with
    | (some e, st2, m2) => (some e, st2, m2)
    | (none, st2, m2) =>
      let afterMems : Option String × StoreState × Metrics :=
        if b.memoryEvents.length > 0 then
          match batchInsertMemoryEvents o st2 b.memoryEvents with
          | .error e => (some ("batch memory event insert: " ++ e), st2, m2)
          | .ok st3 =>
            (none, st3,
             { m2 with memoryEvents := m2.memoryEvents + b.memoryEvents.length })
        else (none, st2, m2)
      match afterMems with
      | (some e, st3, m3) => (some e, st3, m3)
      | (none, st3, m3) =>
        match insertToolCallsLoop o b.toolCalls st3 m3 with
        | (some e, st4, m4) => (some e, st4, m4)
        | (none, st4, m4) =>
          (none, st4,
           { m4 with batchesCommitted := m4.batchesCommitted + 1 })

/-- processMessage models DaemonIngester.processMessage: decode failures
return an error, single items are offered to their queue without blocking
(the queue accepts while below its capacity) and fall back to a direct
store insert when the queue is full, batches go through processBatch. -/
def processMessage (o : Oracle) (s : IngState) (msg : Msg) :
    IngState × Option String :=
  match msg with
  | .trace (.error _) => (s, some "unmarshaling trace")
  | .trace (.ok t) =>
    if s.traceQ.length < s.batchSize then
      ({ s with
         traceQ := s.traceQ ++ [t]
         metrics := { s.metrics with
           tracesIngested := s.metrics.tracesIngested + 1 } }, none)
    else
      match insertTrace o s.store t with
      | .error e => (s, some ("direct trace insert: " ++ e))
      | .ok st1 =>
        ({ s with
           store := st1
           metrics := { s.metrics with
             tracesIngested := s.metrics.tracesIngested + 1 } }, none)
  | .span (.error _) => (s, some "unmarshaling span")
  | .span (.ok sp) =>
    if s.spanQ.length < 2 * s.batchSize then
      ({ s with
         spanQ := s.spanQ ++ [sp]
         metrics := { s.metrics with
           spansIngested := s.metrics.spansIngested + 1 } }, none)
    else
      match insertSpan o s.store sp with
      | .error e => (s, some ("direct span insert: " ++ e))
      | .ok st1 =>
        ({ s with
           store := st1
           metrics := { s.metrics with
             spansIngested := s.metrics.spansIngested + 1 } }, none)
  | .memoryEvent (.error _) => (s, some "unmarshaling memory event")
  | .memoryEvent (.ok ev) =>
    if s.memQ.length < 2 * s.batchSize then
      ({ s with
         memQ := s.memQ ++ [ev]
         metrics := { s.metrics with
           memoryEvents := s.metrics.memoryEvents + 1 } }, none)
    else
      match insertMemoryEvent o s.store ev with
      | .error e => (s, some ("direct memory event insert: " ++ e))
      | .ok st1 =>
        ({ s with
           store := st1
           metrics := { s.metrics with
             memoryEvents := s.metrics.memoryEvents + 1 } }, none)
  | .batch (.error _) => (s, some "unmarshaling batch")
  | .batch (.ok b) =>
    match processBatch o s.store s.metrics b with
    | (r, st1, m1) => ({ s with store := st1, metrics := m1 }, r)
  | .unknown _ => (s, some "unknown message type")

/-! ### Flush loop (flushLoop in part_007, lines 419 to 492) -/

/-- FlushState is the state of the flush goroutine: the three queues with
their closed flags, the context-cancelled flag, the two local buffers and
the shared store and counters. -/
structure FlushState where
  batchSize : Nat
  traceQ : List Trace
  spanQ : List Span
  memQ : List MemoryEvent
  traceClosed : Bool
  spanClosed : Bool
  memClosed : Bool
  ctxDone : Bool
  spanBuf : List Span
  memBuf : List MemoryEvent
  store : StoreState
  metrics : Metrics
  deriving Repr, DecidableEq, Inhabited

/-- flushBufs is the flush closure of flushLoop: each non-empty buffer is
committed as one transactional batch; on error the error counter is
incremented, on success the batch counter; in both cases the buffer is
cleared (spanBuf = spanBuf[:0]). -/
def flushBufs (o : Oracle) (s : FlushState) : FlushState :=
  let s1 :=
    if s.spanBuf.length > 0 then
      match batchInsertSpans o s.store s.spanBuf with
      | .error _ =>
        { s with
          spanBuf := []
          metrics := { s.metrics with errorCount := s.metrics.errorCount + 1 } }
      | .ok st1 =>
        { s with
          spanBuf := []
          store := st1
          metrics := { s.metrics with
            batchesCommitted := s.metrics.batchesCommitted + 1 } }
    else s
  if s1.memBuf.length > 0 then
    match batchInsertMemoryEvents o s1.store s1.memBuf with
    | .error _ =>
      { s1 with
        memBuf := []
        metrics := { s1.metrics with
          errorCount := s1.metrics.errorCount + 1 } }
    | .ok st2 =>
      { s1 with
        memBuf := []
        store := st2
        metrics := { s1.metrics with
          batchesCommitted := s1.metrics.batchesCommitted + 1 } }
  else s1

/-- FlushChoice names the select cases of flushLoop.  The Go runtime
picks any ready case; a schedule is a list of such picks. -/
inductive FlushChoice where
  | ctx
  | traceCh
  | spanCh
  | memCh
  | tick
  deriving Repr, DecidableEq, Inhabited

/-- flushStep executes one select iteration of flushLoop for a given
ready case.  Receiving from a closed empty channel yields ok = false, on
which the loop flushes and returns (the Bool result is true when the loop
has returned).  A case that is not ready leaves the state unchanged. -/
def flushStep (o : Oracle) (s : FlushState) :
    FlushChoice → FlushState × Bool
  | .ctx =>
    if s.ctxDone then (flushBufs o s, true) else (s, false)
  | .traceCh =>
    match s.traceQ with
    | [] =>
      if s.traceClosed then (flushBufs o s, true) else (s, false)
    | t :: ts =>
      let s1 := { s with traceQ := ts }
      match insertTrace o s1.store t with
      | .error _ =>
        ({ s1 with metrics := { s1.metrics with
            errorCount := s1.metrics.errorCount + 1 } }, false)
      | .ok st1 => ({ s1 with store := st1 }, false)
  | .spanCh =>
    match s.spanQ with
    | [] =>
      if s.spanClosed then (flushBufs o s, true) else (s, false)
    | x :: xs =>
      let s1 := { s with spanQ := xs, spanBuf := s.spanBuf ++ [x] }
      if s1.spanBuf.length ≥ s1.batchSize then (flushBufs o s1, false)
      else (s1, false)
  | .memCh =>
    match s.memQ with
    | [] =>
      if s.memClosed then (flushBufs o s, true) else (s, false)
    | x :: xs =>
      let s1 := { s with memQ := xs, memBuf := s.memBuf ++ [x] }
      if s1.memBuf.length ≥ s1.batchSize then (flushBufs o s1, false)
      else (s1, false)
  | .tick => (flushBufs o s, false)

/-- flushRun drives flushLoop along an explicit schedule of select picks,
stopping when the loop returns. -/
def flushRun (o : Oracle) : List FlushChoice → FlushState → FlushState × Bool
  | [], s => (s, false)
  | c :: cs, s =>
    match flushStep o s c with
    | (s1, true) => (s1, true)
    | (s1, false) => flushRun o cs s1

/-! ## Analyzer model (internal/analysis/analyzer.go)

The float64 arithmetic of the analyzer is embedded exactly: over the
rationals where only field operations occur, and over an arbitrary linear
ordered field with an explicit square-root argument for the Z-score pass
(the claims instantiate it at the reals with Real.sqrt). -/

/-- goRound is math.Round: round half away from zero. -/
def goRound {α : Type} [LinearOrderedField α] [FloorRing α] (x : α) : Int :=
  if x < 0 then -⌊-x + 1 / 2⌋ else ⌊x + 1 / 2⌋

/-- roundTo k x is the idiom math.Round(x * k) / k used throughout the
analyzer for rounding to fixed decimal places. -/
def roundTo {α : Type} [LinearOrderedField α] [FloorRing α]
    (k x : α) : α :=
  ((goRound (x * k) : Int) : α) / k

/-- RegSums holds the one-pass sums of the regression loop. -/
structure RegSums where
  sumX : Rat
  sumY : Rat
  sumXY : Rat
  sumX2 : Rat
  sumY2 : Rat
  deriving Repr, DecidableEq, Inhabited

/-- regStep is the body of the sums loop of linearRegression. -/
def regStep (a : RegSums) (p : Rat × Rat) : RegSums :=
  ⟨a.sumX + p.1, a.sumY + p.2, a.sumXY + p.1 * p.2,
   a.sumX2 + p.1 * p.1, a.sumY2 + p.2 * p.2⟩

/-- resStep is the body of the residual loop of linearRegression, for a
given slope, intercept and mean of y. -/
def resStep (m b my : Rat) (a : Rat × Rat) (p : Rat × Rat) : Rat × Rat :=
  (a.1 + (p.2 - (m * p.1 + b)) * (p.2 - (m * p.1 + b)),
   a.2 + (p.2 - my) * (p.2 - my))

/-- linearRegression mirrors analysis.linearRegression: ordinary least
squares over the data points, returning slope, intercept and R squared,
with the literal guards of the Go function (fewer than 2 points, zero
denominator, zero total sum of squares). -/
def linearRegression (points : List (Rat × Rat)) : Rat × Rat × Rat :=
  let n : Rat := points.length
  if points.length < 2 then (0, 0, 0)
  else
    let s := points.foldl regStep (⟨0, 0, 0, 0, 0⟩ : RegSums)
    let denom := n * s.sumX2 - s.sumX * s.sumX
    if denom = 0 then (0, s.sumY / n, 0)
    else
      let slope := (n * s.sumXY - s.sumX * s.sumY) / denom
      let intercept := (s.sumY - slope * s.sumX) / n
      let meanY := s.sumY / n
      let rs := points.foldl (resStep slope intercept meanY) (0, 0)
      let r2 := if rs.2 = 0 then 1 else 1 - rs.1 / rs.2
      (slope, intercept, r2)

/-! ### Memory growth analysis -/

/-- KeyGrowthEntry mirrors analysis.KeyGrowthEntry. -/
structure KeyGrowthEntry where
  key : String
  nspace : String
  timestamp : String
  operation : String
  deriving Repr, DecidableEq, Inhabited

/-- MemoryGrowthReport mirrors analysis.MemoryGrowthReport. -/
structure MemoryGrowthReport where
  traceId : String
  totalKeys : Int
  totalEvents : Int
  growthRate : Rat
  slope : Rat
  intercept : Rat
  rSquared : Rat
  prediction30Min : Int
  isUnbounded : Bool
  keyGrowth : List KeyGrowthEntry
  deriving Repr, DecidableEq, Inhabited

/-- growthStep is the switch of the AnalyzeMemoryGrowth loop: the running
key set (a Go map used as a set, keyed by namespace dot key) gains the
key on ADD, loses it on DELETE and is untouched otherwise. -/
def growthStep (ks : Finset String) (ev : MemoryEvent) : Finset String :=
  if ev.operation = "ADD" then insert (ev.nspace ++ "." ++ ev.key) ks
  else if ev.operation = "DELETE" then ks.erase (ev.nspace ++ "." ++ ev.key)
  else ks

/-- keySetOf folds growthStep over a list of events starting from the
empty set. -/
def keySetOf (evs : List MemoryEvent) : Finset String :=
  evs.foldl growthStep ∅

/-- growthPoints emits, per event, the sample (seconds since the first
event, size of the key set after the event), exactly as the loop in
AnalyzeMemoryGrowth does (the key-set switch runs before the sample is
taken). -/
def growthPoints (base : Int) :
    List MemoryEvent → Finset String → List (Rat × Rat)
  | [], _ => []
  | ev :: evs, ks =>
    let ks1 := growthStep ks ev
    (((ev.timestamp - base : Int) : Rat) / 1000000000, (ks1.card : Rat)) ::
      growthPoints base evs ks1

/-- analyzeMemoryGrowth mirrors analysis.AnalyzeMemoryGrowth on the list
of memory events gathered from the store (fmtTs stands for the external
timeutil.FormatTimestamp helper, which only feeds the KeyGrowth log).
Fewer than 2 events short-circuit to a zero report; otherwise the events
are sorted by timestamp, the samples are regressed, growth is flagged
unbounded when slope exceeds 0.1 and R squared exceeds 0.7, and the
thirty-minute prediction is the Go int conversion of
max(0, slope * (last + 1800) + intercept). -/
def analyzeMemoryGrowth (fmtTs : Int → String) (traceId : String)
    (events : List MemoryEvent) : MemoryGrowthReport :=
  if events.length < 2 then
    { traceId := traceId, totalKeys := 0, totalEvents := events.length,
      growthRate := 0, slope := 0, intercept := 0, rSquared := 0,
      prediction30Min := 0, isUnbounded := false, keyGrowth := [] }
  else
    let sorted := events.insertionSort fun a b => a.timestamp ≤ b.timestamp
    let base := sorted.headI.timestamp
    let points := growthPoints base sorted ∅
    let reg := linearRegression points
    let slope := reg.1
    let intercept := reg.2.1
    let r2 := reg.2.2
    let lastTime := (points.getLast?.getD (0, 0)).1
    let pred := slope * (lastTime + 1800) + intercept
    { traceId := traceId
      totalKeys := ((keySetOf sorted).card : Int)
      totalEvents := events.length
      growthRate := roundTo 100 slope
      slope := roundTo 1000 slope
      intercept := roundTo 100 intercept
      rSquared := roundTo 1000 r2
      prediction30Min := ⌊max 0 pred⌋
      isUnbounded := decide ((1 : Rat) / 10 < slope) &&
        decide ((7 : Rat) / 10 < r2)
      keyGrowth := sorted.map fun ev =>
        ⟨ev.key, ev.nspace, fmtTs ev.timestamp, ev.operation⟩ }

/-! ### Cost attribution -/

/-- CostEntry mirrors analysis.CostEntry. -/
structure CostEntry where
  spanId : String
  operationName : String
  model : String
  promptTokens : Int
  completionTokens : Int
  estimatedCost : Rat
  percentage : Rat
  deriving Repr, DecidableEq, Inhabited

/-- CostReport mirrors analysis.CostReport. -/
structure CostReport where
  traceId : String
  totalPromptTokens : Int
  totalCompletionTokens : Int
  totalEstimatedCost : Rat
  entries : List CostEntry
  deriving Repr, DecidableEq, Inhabited

/-- modelPricing is the static pricing table (dollars per 1K prompt and
completion tokens). -/
def modelPricing (m : String) : Option (Rat × Rat) :=
  if m = "gpt-4" then some (3 / 100, 6 / 100)
  else if m = "gpt-4-turbo" then some (1 / 100, 3 / 100)
  else if m = "gpt-4o" then some (5 / 1000, 15 / 1000)
  else if m = "gpt-4o-mini" then some (15 / 100000, 6 / 10000)
  else if m = "gpt-3.5-turbo" then some (5 / 10000, 15 / 10000)
  else if m = "claude-3-opus" then some (15 / 1000, 75 / 1000)
  else if m = "claude-3-sonnet" then some (3 / 1000, 15 / 1000)
  else if m = "claude-3-haiku" then some (25 / 100000, 125 / 100000)
  else none

/-- spanCost is the unrounded cost of one LLM span under the pricing
table, with the default (0.01, 0.03) for unknown models. -/
def spanCost (s : Span) : Rat :=
  let pricing := (modelPricing (s.model.getD "unknown")).getD (1 / 100, 3 / 100)
  (s.promptTokens : Rat) / 1000 * pricing.1 +
    (s.completionTokens : Rat) / 1000 * pricing.2

/-- costAccum is the accumulator of the first AttributeCosts loop:
running prompt and completion token totals, unrounded cost total, and the
entry list (each entry carries its cost rounded to four decimals and a
zero percentage). -/
def costAccum (acc : Int × Int × Rat × List CostEntry) (s : Span) :
    Int × Int × Rat × List CostEntry :=
  if s.operationType = "LLM" then
    (acc.1 + s.promptTokens, acc.2.1 + s.completionTokens,
     acc.2.2.1 + spanCost s,
     acc.2.2.2 ++
       [⟨s.spanId, s.operationName, s.model.getD "unknown", s.promptTokens,
         s.completionTokens, roundTo 10000 (spanCost s), 0⟩])
  else acc

/-- attributeCosts mirrors analysis.AttributeCosts: one pass building the
entries and totals, then a second pass writing each percentage as
math.Round(entryCost / total * 10000) / 100 whenever the total is
positive. -/
def attributeCosts (traceId : String) (spans : List Span) : CostReport :=
  let acc := spans.foldl costAccum (0, 0, 0, [])
  let total := acc.2.2.1
  { traceId := traceId
    totalPromptTokens := acc.1
    totalCompletionTokens := acc.2.1
    totalEstimatedCost := total
    entries := acc.2.2.2.map fun e =>
      if 0 < total then
        { e with percentage :=
            ((goRound (e.estimatedCost / total * 10000) : Int) : Rat) / 100 }
      else e }

/-! ### Token hotspot detection

The detector takes the square root as an explicit argument so that the
definition stays parametric in the number field; the claims instantiate
the field at the reals and the argument at Real.sqrt, which is the exact
counterpart of math.Sqrt. -/

/-- isLLM is the LLM-span filter condition of the analyzer passes. -/
def isLLM (s : Span) : Bool := s.operationType = "LLM"

/-- TokenHotspot mirrors analysis.TokenHotspot over a number field. -/
structure TokenHotspot (α : Type) where
  spanId : String
  operationName : String
  promptTokens : Int
  completionTokens : Int
  totalTokens : Int
  zScore : α
  severity : String

/-- spanTotal is the float64 conversion of prompt plus completion
tokens. -/
def spanTotal {α : Type} [LinearOrderedField α] (s : Span) : α :=
  ((s.promptTokens + s.completionTokens : Int) : α)

/-- hotStep is the body of the one-pass sums loop of
DetectTokenHotspots. -/
def hotStep {α : Type} [LinearOrderedField α] (a : α × α) (s : Span) :
    α × α :=
  (a.1 + spanTotal s, a.2 + spanTotal s * spanTotal s)

/-- zScoreOf is the Z-score of one span for a given mean and standard
deviation. -/
def zScoreOf {α : Type} [LinearOrderedField α] (mean stddev : α)
    (s : Span) : α :=
  (spanTotal s - mean) / stddev

/-- severityOf is the threshold classification of DetectTokenHotspots:
high above 3, medium above 2, low otherwise. -/
def severityOf {α : Type} [LinearOrderedField α] (z : α) : String :=
  if 3 < z then "high" else if 2 < z then "medium" else "low"

/-- mkHotspot is the record appended for a span whose Z-score passes the
1.5 threshold, with the Z-score rounded to two decimals. -/
def mkHotspot {α : Type} [LinearOrderedField α] [FloorRing α]
    (mean stddev : α) (s : Span) : TokenHotspot α :=
  { spanId := s.spanId
    operationName := s.operationName
    promptTokens := s.promptTokens
    completionTokens := s.completionTokens
    totalTokens := s.promptTokens + s.completionTokens
    zScore := roundTo 100 (zScoreOf mean stddev s)
    severity := severityOf (zScoreOf mean stddev s) }

/-- hotspotGE is the sort order of the result list: Z-score
descending. -/
def hotspotGE {α : Type} [LinearOrderedField α]
    (a b : TokenHotspot α) : Prop :=
  b.zScore ≤ a.zScore

instance {α : Type} [LinearOrderedField α] :
    DecidableRel (hotspotGE (α := α)) := fun a b =>
  inferInstanceAs (Decidable (b.zScore ≤ a.zScore))

instance {α : Type} [LinearOrderedField α] :
    IsTotal (TokenHotspot α) hotspotGE :=
  ⟨fun a b => (le_total b.zScore a.zScore).imp id id⟩

instance {α : Type} [LinearOrderedField α] :
    IsTrans (TokenHotspot α) hotspotGE :=
  ⟨fun _ _ _ hab hbc => le_trans hbc hab⟩

/-- detectTokenHotspots mirrors analysis.DetectTokenHotspots on the spans
of one trace: LLM spans only, at least 2 required, one-pass mean and
population standard deviation, emission of spans with Z-score above 1.5
with severity by threshold, Z rounded to two decimals, sorted by Z-score
descending. -/
def detectTokenHotspots {α : Type} [LinearOrderedField α] [FloorRing α]
    (sqrtF : α → α) (spans : List Span) : List (TokenHotspot α) :=
  let llmSpans := spans.filter isLLM
  if llmSpans.length < 2 then []
  else
    let n : α := llmSpans.length
    let sums := llmSpans.foldl hotStep ((0 : α), (0 : α))
    let mean := sums.1 / n
    let variance := sums.2 / n - mean * mean
    let stddev := sqrtF variance
    if stddev = 0 then []
    else
      (llmSpans.filterMap fun s =>
        if 3 / 2 < zScoreOf mean stddev s then
          some (mkHotspot mean stddev s)
        else none).insertionSort hotspotGE

/-! ## Spec-side formulas

These definitions transcribe the formulas of the specification text (big
sums over the point list instead of the one-pass accumulators of the
implementation).  The claim theorems relate them to the embedded code. -/

/-- sX is the sum of the x coordinates. -/
def sX (pts : List (Rat × Rat)) : Rat := (pts.map Prod.fst).sum

/-- sY is the sum of the y coordinates. -/
def sY (pts : List (Rat × Rat)) : Rat := (pts.map Prod.snd).sum

/-- sXY is the sum of the products x times y. -/
def sXY (pts : List (Rat × Rat)) : Rat := (pts.map fun p => p.1 * p.2).sum

/-- sX2 is the sum of the squared x coordinates. -/
def sX2 (pts : List (Rat × Rat)) : Rat := (pts.map fun p => p.1 * p.1).sum

/-- sY2 is the sum of the squared y coordinates. -/
def sY2 (pts : List (Rat × Rat)) : Rat := (pts.map fun p => p.2 * p.2).sum

/-- olsDenom is the spec denominator n Σx² − (Σx)². -/
def olsDenom (pts : List (Rat × Rat)) : Rat :=
  (pts.length : Rat) * sX2 pts - sX pts * sX pts

/-- olsSlope is the spec slope m = (n Σxy − Σx Σy) / (n Σx² − (Σx)²). -/
def olsSlope (pts : List (Rat × Rat)) : Rat :=
  ((pts.length : Rat) * sXY pts - sX pts * sY pts) / olsDenom pts

/-- olsIntercept is the spec intercept b = (Σy − m Σx) / n. -/
def olsIntercept (pts : List (Rat × Rat)) : Rat :=
  (sY pts - olsSlope pts * sX pts) / (pts.length : Rat)

/-- ssRes is the residual sum of squares for a given line. -/
def ssRes (m b : Rat) (pts : List (Rat × Rat)) : Rat :=
  (pts.map fun p => (p.2 - (m * p.1 + b)) * (p.2 - (m * p.1 + b))).sum

/-- ssTot is the total sum of squares about the mean of y. -/
def ssTot (pts : List (Rat × Rat)) : Rat :=
  (pts.map fun p =>
    (p.2 - sY pts / (pts.length : Rat)) *
    (p.2 - sY pts / (pts.length : Rat))).sum

/-! ## Supporting lemmas -/

theorem regSums_foldl (pts : List (Rat × Rat)) : ∀ a : RegSums,
    pts.foldl regStep a =
      ⟨a.sumX + sX pts, a.sumY + sY pts, a.sumXY + sXY pts,
       a.sumX2 + sX2 pts, a.sumY2 + sY2 pts⟩ := by
  induction pts with
  | nil => intro a; simp [sX, sY, sXY, sX2, sY2]
  | cons p ps ih =>
    intro a
    simp only [List.foldl_cons, ih, regStep, sX, sY, sXY, sX2, sY2,
      List.map_cons, List.sum_cons, RegSums.mk.injEq]
    exact ⟨by ring, by ring, by ring, by ring, by ring⟩

theorem resSums_foldl (m b my : Rat) (pts : List (Rat × Rat)) :
    ∀ a : Rat × Rat,
    pts.foldl (resStep m b my) a =
      (a.1 + (pts.map fun p =>
          (p.2 - (m * p.1 + b)) * (p.2 - (m * p.1 + b))).sum,
       a.2 + (pts.map fun p => (p.2 - my) * (p.2 - my)).sum) := by
  induction pts with
  | nil => intro a; simp
  | cons p ps ih =>
    intro a
    simp only [List.foldl_cons, ih, resStep, List.map_cons, List.sum_cons,
      Prod.mk.injEq]
    exact ⟨by ring, by ring⟩

/-- goRound on a nonnegative argument is the floor of x + 1/2. -/
theorem goRound_nonneg_eq {α : Type} [LinearOrderedField α] [FloorRing α]
    (x : α) (n : Int) (h0 : 0 ≤ x) (h1 : (n : α) ≤ x + 1 / 2)
    (h2 : x + 1 / 2 < n + 1) : goRound x = n := by
  rw [goRound, if_neg (not_lt.mpr h0)]
  exact Int.floor_eq_iff.mpr ⟨h1, by exact_mod_cast h2⟩

/-- mkCostEntry is the entry built by the first AttributeCosts loop. -/
def mkCostEntry (s : Span) : CostEntry :=
  ⟨s.spanId, s.operationName, s.model.getD "unknown", s.promptTokens,
   s.completionTokens, roundTo 10000 (spanCost s), 0⟩

/-- llmCostTotal is the spec-side trace total: the sum of the unrounded
costs of the LLM spans. -/
def llmCostTotal (spans : List Span) : Rat :=
  ((spans.filter isLLM).map spanCost).sum

theorem cost_foldl (spans : List Span) :
    ∀ acc : Int × Int × Rat × List CostEntry,
    spans.foldl costAccum acc =
      (acc.1 + ((spans.filter isLLM).map Span.promptTokens).sum,
       acc.2.1 + ((spans.filter isLLM).map Span.completionTokens).sum,
       acc.2.2.1 + llmCostTotal spans,
       acc.2.2.2 ++ (spans.filter isLLM).map mkCostEntry) := by
  induction spans with
  | nil => intro acc; simp [llmCostTotal]
  | cons s ss ih =>
    intro acc
    by_cases h : s.operationType = "LLM"
    · simp only [List.foldl_cons, costAccum, if_pos h, ih]
      simp [llmCostTotal, List.filter_cons, isLLM, h, mkCostEntry, add_assoc]
    · simp only [List.foldl_cons, costAccum, if_neg h, ih]
      simp [llmCostTotal, List.filter_cons, isLLM, h]

/-! ## Claim theorems -/

/-- Claim C6: for every list of at least 2 data points, linearRegression
returns the ordinary-least-squares slope and intercept; a zero
denominator yields slope 0, the mean of y and R squared 0; otherwise R
squared is 1 − SSres/SStot, with R squared 1 when SStot is 0.  The
perfect line through (0,1),(1,3),(2,5),(3,7),(4,9) yields (2, 1, 1) and
the flat points (0,5),(1,5),(2,5),(3,5) yield (0, 5, 1). -/
theorem claim6_linear_regression :
    (∀ pts : List (Rat × Rat), 2 ≤ pts.length →
      (olsDenom pts = 0 →
        linearRegression pts = (0, sY pts / (pts.length : Rat), 0)) ∧
      (olsDenom pts ≠ 0 →
        linearRegression pts =
          (olsSlope pts, olsIntercept pts,
           if ssTot pts = 0 then 1
           else 1 - ssRes (olsSlope pts) (olsIntercept pts) pts /
             ssTot pts))) ∧
    linearRegression [(0, 1), (1, 3), (2, 5), (3, 7), (4, 9)] = (2, 1, 1) ∧
    linearRegression [(0, 5), (1, 5), (2, 5), (3, 5)] = (0, 5, 1) := by
  refine ⟨?_, by norm_num [linearRegression, regStep, resStep],
    by norm_num [linearRegression, regStep, resStep]⟩
  intro pts hlen
  have hg : ¬ pts.length < 2 := by omega
  constructor
  · intro hd
    have hd2 : (pts.length : Rat) * (0 + sX2 pts) -
        (0 + sX pts) * (0 + sX pts) = 0 := by
      simpa [olsDenom] using hd
    simp only [linearRegression, if_neg hg, regSums_foldl]
    rw [if_pos hd2]
    simp
  · intro hd
    have hd2 : ¬ ((pts.length : Rat) * (0 + sX2 pts) -
        (0 + sX pts) * (0 + sX pts) = 0) := by
      simpa [olsDenom] using hd
    simp only [linearRegression, if_neg hg, regSums_foldl]
    rw [if_neg hd2]
    simp only [resSums_foldl, zero_add]
    simp [olsSlope, olsIntercept, olsDenom, ssRes, ssTot]

/-- Witness for C6: the general part of the claim applied to the
concrete points (0,0),(1,2),(2,4), whose denominator is 6 and whose
regression is the exact line y = 2x. -/
theorem claim6_linear_regression_witness :
    linearRegression [(0, 0), (1, 2), (2, 4)] = (2, 0, 1) := by
  have h := (claim6_linear_regression.1 [(0, 0), (1, 2), (2, 4)]
    (by decide)).2 (by norm_num [olsDenom, sX, sX2])
  rw [h]
  norm_num [olsSlope, olsIntercept, olsDenom, ssRes, ssTot, sX, sY, sXY, sX2]

/-- c3span is an LLM span costing 1000 prompt tokens on gpt-4, worth
0.03 dollars; three of them give each entry a third of the total. -/
def c3span (i : Nat) : Span :=
  { spanId := "s" ++ toString i, traceId := "t1", parentSpanId := none,
    operationType := "LLM", operationName := "call", startTime := 0,
    durationMs := 1, prompt := none, completion := none,
    promptTokens := 1000, completionTokens := 0, model := some "gpt-4",
    temperature := none, metadata := none, status := "ok",
    errorMessage := none }

/-- Counterexample for C3: with three equal gpt-4 spans the stored
percentage is 33.33 (two decimal places, Round(x·10000)/100 in the
code), while the claim prescribes one decimal place, which would give
33.3; the two values differ. -/
theorem claim3_cost_attribution_counterexample :
    ((attributeCosts "t1" [c3span 1, c3span 2, c3span 3]).entries.map
      CostEntry.percentage) = [3333 / 100, 3333 / 100, 3333 / 100] ∧
    (attributeCosts "t1" [c3span 1, c3span 2, c3span 3]).totalEstimatedCost
      = 9 / 100 ∧
    roundTo 10
      (roundTo 10000 (spanCost (c3span 1)) / ((9 : Rat) / 100) * 100)
      = 333 / 10 ∧
    ((3333 : Rat) / 100) ≠ 333 / 10 := by
  have g1 : goRound ((300 : Rat)) = 300 :=
    goRound_nonneg_eq _ _ (by norm_num) (by norm_num) (by norm_num)
  have g2 : goRound ((10000 : Rat) / 3) = 3333 :=
    goRound_nonneg_eq _ _ (by norm_num) (by norm_num) (by norm_num)
  have g3 : goRound ((1000 : Rat) / 3) = 333 :=
    goRound_nonneg_eq _ _ (by norm_num) (by norm_num) (by norm_num)
  refine ⟨?_, ?_, ?_, by norm_num⟩
  · simp [attributeCosts, costAccum, c3span, spanCost, modelPricing, roundTo]
    norm_num [g1]
    rw [g2]
    norm_num
  · simp [attributeCosts, costAccum, c3span, spanCost, modelPricing]
    norm_num
  · simp [c3span, spanCost, modelPricing, roundTo]
    norm_num [g1]
    rw [g3]
    norm_num

/-- Claim C3 as amended: for every trace, the cost report totals are the
sums over LLM spans, each entry carries its dollar cost
prompt/1000·promptPrice + completion/1000·completionPrice rounded to
four decimal places, and when the trace total is positive each entry
percentage is the entry cost divided by the trace total times 100
rounded to TWO decimal places (the code stores Round(x·10000)/100, not
one decimal place as originally claimed). -/
theorem claim3_cost_attribution_amended :
    ∀ (tid : String) (spans : List Span),
    (attributeCosts tid spans).totalPromptTokens =
      ((spans.filter isLLM).map Span.promptTokens).sum ∧
    (attributeCosts tid spans).totalCompletionTokens =
      ((spans.filter isLLM).map Span.completionTokens).sum ∧
    (attributeCosts tid spans).totalEstimatedCost = llmCostTotal spans ∧
    (attributeCosts tid spans).entries =
      (spans.filter isLLM).map fun s =>
        { spanId := s.spanId
          operationName := s.operationName
          model := s.model.getD "unknown"
          promptTokens := s.promptTokens
          completionTokens := s.completionTokens
          estimatedCost := roundTo 10000 (spanCost s)
          percentage :=
            if 0 < llmCostTotal spans then
              ((goRound (roundTo 10000 (spanCost s) / llmCostTotal spans *
                10000) : Int) : Rat) / 100
            else 0 } := by
  intro tid spans
  simp only [attributeCosts, cost_foldl, zero_add, List.nil_append]
  refine ⟨trivial, trivial, trivial, ?_⟩
  rw [List.map_map]
  have hfun : ((fun e : CostEntry =>
      if 0 < llmCostTotal spans then
        { e with percentage :=
            ((goRound (e.estimatedCost / llmCostTotal spans * 10000) :
              Int) : Rat) / 100 }
      else e) ∘ mkCostEntry) =
      fun s : Span =>
        { spanId := s.spanId
          operationName := s.operationName
          model := s.model.getD "unknown"
          promptTokens := s.promptTokens
          completionTokens := s.completionTokens
          estimatedCost := roundTo 10000 (spanCost s)
          percentage :=
            if 0 < llmCostTotal spans then
              ((goRound (roundTo 10000 (spanCost s) / llmCostTotal spans *
                10000) : Int) : Rat) / 100
            else 0 } := by
    funext s
    by_cases h : 0 < llmCostTotal spans
    · simp [h, mkCostEntry, Function.comp]
    · simp [h, mkCostEntry, Function.comp]
  rw [hfun]

/-- Claim C8: GetPendingPayloads returns only rows with status pending,
ordered by write id ascending; after WritePendingPayload the returned id
appears exactly once in GetPendingPayloads, and after a subsequent
CommitPendingPayload on that id it no longer appears. -/
theorem claim8_pending_log :
    (∀ st : StoreState, ∀ r ∈ getPendingPayloads st, r.status = "pending") ∧
    (∀ st : StoreState,
      List.Sorted pendingLE (getPendingPayloads st)) ∧
    (∀ (st : StoreState) (now now2 : Int) (p : List Nat), WFStore st →
      ((getPendingPayloads (writePendingPayload st now p).2).filter
        (fun r => r.writeId = (writePendingPayload st now p).1)).length = 1 ∧
      ∀ r ∈ getPendingPayloads
        (commitPendingPayload (writePendingPayload st now p).2 now2
          (writePendingPayload st now p).1),
        r.writeId ≠ (writePendingPayload st now p).1) := by
  refine ⟨?_, ?_, ?_⟩
  · intro st r hr
    have hmem := (List.perm_insertionSort pendingLE
      (st.pendingRows.filter fun r => r.status = "pending")).mem_iff.mp hr
    exact of_decide_eq_true (List.mem_filter.mp hmem).2
  · intro st
    exact List.sorted_insertionSort pendingLE _
  · intro st now now2 p hwf
    constructor
    · have hperm := (List.perm_insertionSort pendingLE
        (((writePendingPayload st now p).2.pendingRows).filter
          fun r => r.status = "pending")).filter
        (fun r => r.writeId = (writePendingPayload st now p).1)
      rw [getPendingPayloads, hperm.length_eq]
      simp only [writePendingPayload, List.filter_append]
      rw [List.filter_filter]
      have hold : (st.pendingRows.filter fun r =>
          decide (r.writeId = st.nextWriteId) &&
            decide (r.status = "pending")) = [] := by
        rw [List.filter_eq_nil_iff]
        intro a ha
        have := hwf.2 a ha
        simp only [Bool.and_eq_true, decide_eq_true_eq]
        rintro ⟨h1, -⟩
        omega
      rw [hold]
      simp [writePendingPayload]
    · intro r hr
      have hmem := (List.perm_insertionSort pendingLE _).mem_iff.mp hr
      have h2 := List.mem_filter.mp hmem
      have hpend : r.status = "pending" := of_decide_eq_true h2.2
      have hmap : r ∈ (commitPendingPayload (writePendingPayload st now p).2
          now2 (writePendingPayload st now p).1).pendingRows := h2.1
      simp only [commitPendingPayload] at hmap
      obtain ⟨r0, hr0, hfr⟩ := List.mem_map.mp hmap
      by_cases hid : r0.writeId = (writePendingPayload st now p).1
      · rw [if_pos hid] at hfr
        rw [← hfr] at hpend
        simp at hpend
      · rw [if_neg hid] at hfr
        rw [← hfr]
        exact hid


/-- Witness for C8: the write and commit part of the claim applied to a
fresh database and the payload bytes [1, 2]. -/
theorem claim8_pending_log_witness :
    ((getPendingPayloads (writePendingPayload emptyStore 7 [1, 2]).2).filter
      (fun r => r.writeId = (writePendingPayload emptyStore 7 [1, 2]).1)).length
      = 1 ∧
    ∀ r ∈ getPendingPayloads
      (commitPendingPayload (writePendingPayload emptyStore 7 [1, 2]).2 9
        (writePendingPayload emptyStore 7 [1, 2]).1),
      r.writeId ≠ (writePendingPayload emptyStore 7 [1, 2]).1 :=
  claim8_pending_log.2.2 emptyStore 7 9 [1, 2] (by simp [WFStore, emptyStore])

theorem upsertSpanTable_find (s : Span) :
    ∀ (rows : List Span) (old : Span),
    rows.find? (fun r => r.spanId = s.spanId) = some old →
    (upsertSpanTable rows s).find? (fun r => r.spanId = s.spanId) =
      some (upsertSpanRow old s) := by
  intro rows
  induction rows with
  | nil => intro old h; simp at h
  | cons r rs ih =>
    intro old h
    by_cases hid : r.spanId = s.spanId
    · rw [List.find?_cons_of_pos _ (by simp [hid])] at h
      injection h with h
      subst h
      rw [upsertSpanTable, if_pos hid]
      rw [List.find?_cons_of_pos _ (by simp [upsertSpanRow, hid])]
    · rw [List.find?_cons_of_neg _ (by simp [hid])] at h
      rw [upsertSpanTable, if_neg hid]
      rw [List.find?_cons_of_neg _ (by simp [hid])]
      exact ih old h

theorem upsertSpanTable_others (s : Span) :
    ∀ rows : List Span,
    (upsertSpanTable rows s).filter (fun r => decide (r.spanId ≠ s.spanId)) =
      rows.filter (fun r => decide (r.spanId ≠ s.spanId)) := by
  intro rows
  induction rows with
  | nil => simp [upsertSpanTable]
  | cons r rs ih =>
    by_cases hid : r.spanId = s.spanId
    · rw [upsertSpanTable, if_pos hid]
      rw [List.filter_cons_of_neg (by simp [upsertSpanRow, hid]),
          List.filter_cons_of_neg (by simp [hid])]
    · rw [upsertSpanTable, if_neg hid]
      rw [List.filter_cons_of_pos (by simp [hid]),
          List.filter_cons_of_pos (by simp [hid]), ih]

/-- Claim C9: when InsertSpan hits an existing span_id, the stored row
only changes in duration_ms, completion (the stored value is kept when
the new one is null), completion_tokens, status and error_message;
trace_id, parent_span_id, operation_type, operation_name, start_time,
prompt, prompt_tokens, model, temperature and metadata keep their stored
values, all other rows and tables are untouched. -/
theorem claim9_span_upsert_frame :
    ∀ (o : Oracle) (st : StoreState) (s old : Span),
    st.spans.find? (fun r => r.spanId = s.spanId) = some old →
    o.spanFails s = false →
    ∃ st1, insertSpan o st s = .ok st1 ∧
      st1.spans.find? (fun r => r.spanId = s.spanId) =
        some (upsertSpanRow old s) ∧
      (upsertSpanRow old s).traceId = old.traceId ∧
      (upsertSpanRow old s).parentSpanId = old.parentSpanId ∧
      (upsertSpanRow old s).operationType = old.operationType ∧
      (upsertSpanRow old s).operationName = old.operationName ∧
      (upsertSpanRow old s).startTime = old.startTime ∧
      (upsertSpanRow old s).prompt = old.prompt ∧
      (upsertSpanRow old s).promptTokens = old.promptTokens ∧
      (upsertSpanRow old s).model = old.model ∧
      (upsertSpanRow old s).temperature = old.temperature ∧
      (upsertSpanRow old s).metadata = old.metadata ∧
      (upsertSpanRow old s).durationMs = s.durationMs ∧
      (upsertSpanRow old s).completion =
        (match s.completion with
         | some v => some v
         | none => old.completion) ∧
      (upsertSpanRow old s).completionTokens = s.completionTokens ∧
      (upsertSpanRow old s).status = s.status ∧
      (upsertSpanRow old s).errorMessage = s.errorMessage ∧
      st1.spans.filter (fun r => decide (r.spanId ≠ s.spanId)) =
        st.spans.filter (fun r => decide (r.spanId ≠ s.spanId)) ∧
      st1.traces = st.traces ∧
      st1.memoryEvents = st.memoryEvents ∧
      st1.toolCalls = st.toolCalls ∧
      st1.pendingRows = st.pendingRows := by
  intro o st s old hfind hok
  refine ⟨{ st with spans := upsertSpanTable st.spans s }, ?_, ?_, rfl, rfl,
    rfl, rfl, rfl, rfl, rfl, rfl, rfl, rfl, rfl, rfl, rfl, rfl, rfl, ?_,
    rfl, rfl, rfl, rfl⟩
  · rw [insertSpan, hok]
    simp
  · exact upsertSpanTable_find s st.spans old hfind
  · exact upsertSpanTable_others s st.spans

/-- c9old is a stored span row used by the C9 witness. -/
def c9old : Span :=
  { spanId := "sp1", traceId := "t1", parentSpanId := none,
    operationType := "LLM", operationName := "a", startTime := 5,
    durationMs := 10, prompt := some "p", completion := some "c",
    promptTokens := 3, completionTokens := 4, model := some "m",
    temperature := none, metadata := none, status := "ok",
    errorMessage := none }

/-- c9new collides with c9old on span_id and carries new completion
data. -/
def c9new : Span :=
  { c9old with
    durationMs := 20
    completion := none
    completionTokens := 9
    status := "error"
    errorMessage := some "boom" }

/-- c9store is a database holding exactly the row c9old. -/
def c9store : StoreState := { emptyStore with spans := [c9old] }

/-- Witness for C9: the frame theorem applied to the singleton store,
with the colliding insert c9new. -/
theorem claim9_span_upsert_frame_witness :
    ∃ st1, insertSpan allOk c9store c9new = .ok st1 ∧
      st1.spans.find? (fun r => r.spanId = c9new.spanId) =
        some (upsertSpanRow c9old c9new) := by
  obtain ⟨st1, h1, h2, hrest⟩ :=
    claim9_span_upsert_frame allOk c9store c9new c9old
      (by simp [c9store, c9old, c9new, emptyStore]) rfl
  exact ⟨st1, h1, h2⟩

theorem insertTracesLoop_ok (o : Oracle) :
    ∀ (l : List Trace), (∀ t ∈ l, o.traceFails t = false) →
    ∀ (st : StoreState) (m : Metrics),
    insertTracesLoop o l st m =
      (none, { st with traces := l.foldl upsertTraceTable st.traces },
       { m with tracesIngested := m.tracesIngested + l.length }) := by
  intro l
  induction l with
  | nil => intro h st m; simp [insertTracesLoop]
  | cons t ts ih =>
    intro h st m
    have ht : o.traceFails t = false := h t (by simp)
    rw [insertTracesLoop, insertTrace, ht]
    simp only [Bool.false_eq_true, if_false]
    rw [ih (fun u hu => h u (by simp [hu]))]
    simp only [List.foldl_cons, List.length_cons, Prod.mk.injEq,
      Metrics.mk.injEq, true_and, and_true]
    push_cast
    ring

theorem insertTracesLoop_err (o : Oracle) :
    ∀ (l1 : List Trace) (t : Trace) (l2 : List Trace),
    (∀ u ∈ l1, o.traceFails u = false) → o.traceFails t = true →
    ∀ (st : StoreState) (m : Metrics),
    insertTracesLoop o (l1 ++ t :: l2) st m =
      (some ("batch trace insert: " ++ ("inserting trace " ++ t.traceId)),
       { st with traces := l1.foldl upsertTraceTable st.traces },
       { m with tracesIngested := m.tracesIngested + l1.length }) := by
  intro l1
  induction l1 with
  | nil =>
    intro t l2 h ht st m
    rw [List.nil_append, insertTracesLoop, insertTrace, ht]
    simp
  | cons u us ih =>
    intro t l2 h ht st m
    have hu : o.traceFails u = false := h u (by simp)
    rw [List.cons_append, insertTracesLoop, insertTrace, hu]
    simp only [Bool.false_eq_true, if_false]
    rw [ih t l2 (fun v hv => h v (by simp [hv])) ht]
    simp only [List.foldl_cons, List.length_cons, Prod.mk.injEq,
      Metrics.mk.injEq, true_and, and_true]
    push_cast
    ring

theorem insertToolCallsLoop_ok (o : Oracle) :
    ∀ (l : List ToolCall), (∀ c ∈ l, o.toolFails c = false) →
    ∀ (st : StoreState) (m : Metrics),
    insertToolCallsLoop o l st m =
      (none, { st with toolCalls := st.toolCalls ++ l }, m) := by
  intro l
  induction l with
  | nil => intro h st m; simp [insertToolCallsLoop]
  | cons c cs ih =>
    intro h st m
    have hc : o.toolFails c = false := h c (by simp)
    rw [insertToolCallsLoop, insertToolCall, hc]
    simp only [Bool.false_eq_true, if_false]
    rw [ih (fun u hu => h u (by simp [hu]))]
    simp

theorem insertToolCallsLoop_err (o : Oracle) :
    ∀ (l1 : List ToolCall) (c : ToolCall) (l2 : List ToolCall),
    (∀ u ∈ l1, o.toolFails u = false) → o.toolFails c = true →
    ∀ (st : StoreState) (m : Metrics),
    insertToolCallsLoop o (l1 ++ c :: l2) st m =
      (some ("batch tool call insert: " ++
        ("inserting tool call for span " ++ c.spanId)),
       { st with toolCalls := st.toolCalls ++ l1 }, m) := by
  intro l1
  induction l1 with
  | nil =>
    intro c l2 h hc st m
    rw [List.nil_append, insertToolCallsLoop, insertToolCall, hc]
    simp
  | cons u us ih =>
    intro c l2 h hc st m
    have hu : o.toolFails u = false := h u (by simp)
    rw [List.cons_append, insertToolCallsLoop, insertToolCall, hu]
    simp only [Bool.false_eq_true, if_false]
    rw [ih c l2 (fun v hv => h v (by simp [hv])) hc]
    simp

theorem c4_success (o : Oracle) (st : StoreState) (m : Metrics)
    (b : BatchMessage) :
    (∀ t ∈ b.traces, o.traceFails t = false) →
    o.spanBatchFails b.spans = false →
    o.memBatchFails b.memoryEvents = false →
    (∀ c ∈ b.toolCalls, o.toolFails c = false) →
    (processBatch o st m b).1 = none ∧
    (processBatch o st m b).2.1 =
      { st with
        traces := b.traces.foldl upsertTraceTable st.traces
        spans := b.spans.foldl upsertSpanTable st.spans
        memoryEvents := st.memoryEvents ++ b.memoryEvents
        toolCalls := st.toolCalls ++ b.toolCalls } := by
  intro htr hsp hme htc
  simp only [processBatch, insertTracesLoop_ok o b.traces htr,
    batchInsertSpans, batchInsertMemoryEvents, hsp, hme,
    Bool.false_eq_true, if_false,
    insertToolCallsLoop_ok o b.toolCalls htc]
  have hsnil : ¬ b.spans.length > 0 → b.spans = [] := by
    intro h
    cases hs : b.spans with
    | nil => rfl
    | cons x xs => rw [hs] at h; simp at h
  have hmnil : ¬ b.memoryEvents.length > 0 → b.memoryEvents = [] := by
    intro h
    cases hs : b.memoryEvents with
    | nil => rfl
    | cons x xs => rw [hs] at h; simp at h
  split_ifs with h1 h2 h3 <;>
    simp_all

theorem c4_traceErr (o : Oracle) (st : StoreState) (m : Metrics)
    (b : BatchMessage) :
    ∀ l1 t l2, b.traces = l1 ++ t :: l2 →
    (∀ u ∈ l1, o.traceFails u = false) → o.traceFails t = true →
    (processBatch o st m b).1 =
      some ("batch trace insert: " ++ ("inserting trace " ++ t.traceId)) ∧
    (processBatch o st m b).2.1 =
      { st with traces := l1.foldl upsertTraceTable st.traces } := by
  intro l1 t l2 heq h1 ht
  simp only [processBatch, heq, insertTracesLoop_err o l1 t l2 h1 ht]
  simp

theorem c4_spanErr (o : Oracle) (st : StoreState) (m : Metrics)
    (b : BatchMessage) :
    (∀ t ∈ b.traces, o.traceFails t = false) →
    b.spans.length > 0 → o.spanBatchFails b.spans = true →
    (processBatch o st m b).1 =
      some ("batch span insert: " ++ "batch inserting spans") ∧
    (processBatch o st m b).2.1 =
      { st with traces := b.traces.foldl upsertTraceTable st.traces } := by
  intro htr hlen hsp
  simp only [processBatch, insertTracesLoop_ok o b.traces htr,
    batchInsertSpans, hsp, hlen, if_true, if_pos hlen]
  simp

theorem c4_memErr (o : Oracle) (st : StoreState) (m : Metrics)
    (b : BatchMessage) :
    (∀ t ∈ b.traces, o.traceFails t = false) →
    o.spanBatchFails b.spans = false →
    b.memoryEvents.length > 0 → o.memBatchFails b.memoryEvents = true →
    (processBatch o st m b).1 =
      some ("batch memory event insert: " ++
        "batch inserting memory events") ∧
    (processBatch o st m b).2.1 =
      { st with
        traces := b.traces.foldl upsertTraceTable st.traces
        spans := b.spans.foldl upsertSpanTable st.spans } := by
  intro htr hsp hlm hme
  simp only [processBatch, insertTracesLoop_ok o b.traces htr,
    batchInsertSpans, batchInsertMemoryEvents, hsp, hme,
    Bool.false_eq_true, if_false, hlm, if_true]
  have hsnil : ¬ b.spans.length > 0 → b.spans = [] := by
    intro h
    cases hs : b.spans with
    | nil => rfl
    | cons x xs => rw [hs] at h; simp at h
  split_ifs with h1 <;> simp_all

theorem c4_toolErr (o : Oracle) (st : StoreState) (m : Metrics)
    (b : BatchMessage) :
    (∀ t ∈ b.traces, o.traceFails t = false) →
    o.spanBatchFails b.spans = false →
    o.memBatchFails b.memoryEvents = false →
    ∀ l1 c l2, b.toolCalls = l1 ++ c :: l2 →
    (∀ u ∈ l1, o.toolFails u = false) → o.toolFails c = true →
    (processBatch o st m b).1 =
      some ("batch tool call insert: " ++
        ("inserting tool call for span " ++ c.spanId)) ∧
    (processBatch o st m b).2.1 =
      { st with
        traces := b.traces.foldl upsertTraceTable st.traces
        spans := b.spans.foldl upsertSpanTable st.spans
        memoryEvents := st.memoryEvents ++ b.memoryEvents
        toolCalls := st.toolCalls ++ l1 } := by
  intro htr hsp hme l1 c l2 heq h1 hc
  simp only [processBatch, insertTracesLoop_ok o b.traces htr,
    batchInsertSpans, batchInsertMemoryEvents, hsp, hme,
    Bool.false_eq_true, if_false, heq,
    insertToolCallsLoop_err o l1 c l2 h1 hc]
  have hsnil : ¬ b.spans.length > 0 → b.spans = [] := by
    intro h
    cases hs : b.spans with
    | nil => rfl
    | cons x xs => rw [hs] at h; simp at h
  have hmnil : ¬ b.memoryEvents.length > 0 → b.memoryEvents = [] := by
    intro h
    cases hs : b.memoryEvents with
    | nil => rfl
    | cons x xs => rw [hs] at h; simp at h
  split_ifs with h1 h2 h3 <;> simp_all


/-- Claim C4: a BATCH commits traces one by one with upsert semantics,
then the spans as one transactional batch, then the memory events as one
transactional batch, then the tool calls one by one; the first failing
sub-operation's error is returned, and every sub-operation committed
before the failure stays committed (no rollback of earlier
sub-batches). -/
theorem claim4_batch_commit_order :
    ∀ (o : Oracle) (st : StoreState) (m : Metrics) (b : BatchMessage),
    ((∀ t ∈ b.traces, o.traceFails t = false) →
     o.spanBatchFails b.spans = false →
     o.memBatchFails b.memoryEvents = false →
     (∀ c ∈ b.toolCalls, o.toolFails c = false) →
     (processBatch o st m b).1 = none ∧
     (processBatch o st m b).2.1 =
       { st with
         traces := b.traces.foldl upsertTraceTable st.traces
         spans := b.spans.foldl upsertSpanTable st.spans
         memoryEvents := st.memoryEvents ++ b.memoryEvents
         toolCalls := st.toolCalls ++ b.toolCalls }) ∧
    (∀ l1 t l2, b.traces = l1 ++ t :: l2 →
     (∀ u ∈ l1, o.traceFails u = false) → o.traceFails t = true →
     (processBatch o st m b).1 =
       some ("batch trace insert: " ++ ("inserting trace " ++ t.traceId)) ∧
     (processBatch o st m b).2.1 =
       { st with traces := l1.foldl upsertTraceTable st.traces }) ∧
    ((∀ t ∈ b.traces, o.traceFails t = false) →
     b.spans.length > 0 → o.spanBatchFails b.spans = true →
     (processBatch o st m b).1 =
       some ("batch span insert: " ++ "batch inserting spans") ∧
     (processBatch o st m b).2.1 =
       { st with traces := b.traces.foldl upsertTraceTable st.traces }) ∧
    ((∀ t ∈ b.traces, o.traceFails t = false) →
     o.spanBatchFails b.spans = false →
     b.memoryEvents.length > 0 → o.memBatchFails b.memoryEvents = true →
     (processBatch o st m b).1 =
       some ("batch memory event insert: " ++
         "batch inserting memory events") ∧
     (processBatch o st m b).2.1 =
       { st with
         traces := b.traces.foldl upsertTraceTable st.traces
         spans := b.spans.foldl upsertSpanTable st.spans }) ∧
    ((∀ t ∈ b.traces, o.traceFails t = false) →
     o.spanBatchFails b.spans = false →
     o.memBatchFails b.memoryEvents = false →
     ∀ l1 c l2, b.toolCalls = l1 ++ c :: l2 →
     (∀ u ∈ l1, o.toolFails u = false) → o.toolFails c = true →
     (processBatch o st m b).1 =
       some ("batch tool call insert: " ++
         ("inserting tool call for span " ++ c.spanId)) ∧
     (processBatch o st m b).2.1 =
       { st with
         traces := b.traces.foldl upsertTraceTable st.traces
         spans := b.spans.foldl upsertSpanTable st.spans
         memoryEvents := st.memoryEvents ++ b.memoryEvents
         toolCalls := st.toolCalls ++ l1 }) :=
  fun o st m b =>
    ⟨c4_success o st m b, c4_traceErr o st m b, c4_spanErr o st m b,
     c4_memErr o st m b, c4_toolErr o st m b⟩

/-- c4oracle makes every transactional span batch fail and everything
else succeed. -/
def c4oracle : Oracle := { allOk with spanBatchFails := fun _ => true }

/-- c4trace is a running trace for the C4 witness. -/
def c4trace : Trace := ⟨"t1", "agent", 1, none, "running", none⟩

/-- c4span is the span whose batch commit fails in the C4 witness. -/
def c4span : Span :=
  ⟨"sp9", "t1", none, "LLM", "call", 2, 5, none, none, 1, 2, none, none,
   none, "ok", none⟩

/-- c4batch bundles one trace and one span. -/
def c4batch : BatchMessage := ⟨[c4trace], [c4span], [], []⟩

/-- Witness for C4: the span-stage failure case on a concrete batch; the
trace commit survives and the span batch error is returned. -/
theorem claim4_batch_commit_order_witness :
    (processBatch c4oracle emptyStore zeroMetrics c4batch).1 =
      some ("batch span insert: " ++ "batch inserting spans") ∧
    (processBatch c4oracle emptyStore zeroMetrics c4batch).2.1 =
      { emptyStore with
        traces := c4batch.traces.foldl upsertTraceTable emptyStore.traces } :=
  (claim4_batch_commit_order c4oracle emptyStore zeroMetrics
    c4batch).2.2.1 (by simp [c4batch, c4oracle, allOk])
    (by simp [c4batch]) rfl

/-- Claim C10: after every flush of the flush loop both buffers are
cleared regardless of batch success; on a failed batch insert the
buffered items are discarded (the store keeps its previous rows),
ErrorCount is incremented and BatchesCommitted is not; on success the
rows are committed and BatchesCommitted is incremented.  The queues and
the ingestion counters are untouched by the flush itself. -/
theorem claim10_flush_clears_buffers :
    ∀ (o : Oracle) (s : FlushState),
    (flushBufs o s).spanBuf = [] ∧
    (flushBufs o s).memBuf = [] ∧
    (flushBufs o s).store.spans =
      (if s.spanBuf.length > 0 ∧ o.spanBatchFails s.spanBuf = false
       then s.spanBuf.foldl upsertSpanTable s.store.spans
       else s.store.spans) ∧
    (flushBufs o s).store.memoryEvents =
      (if s.memBuf.length > 0 ∧ o.memBatchFails s.memBuf = false
       then s.store.memoryEvents ++ s.memBuf
       else s.store.memoryEvents) ∧
    (flushBufs o s).metrics.errorCount = s.metrics.errorCount +
      (if s.spanBuf.length > 0 ∧ o.spanBatchFails s.spanBuf = true
       then 1 else 0) +
      (if s.memBuf.length > 0 ∧ o.memBatchFails s.memBuf = true
       then 1 else 0) ∧
    (flushBufs o s).metrics.batchesCommitted = s.metrics.batchesCommitted +
      (if s.spanBuf.length > 0 ∧ o.spanBatchFails s.spanBuf = false
       then 1 else 0) +
      (if s.memBuf.length > 0 ∧ o.memBatchFails s.memBuf = false
       then 1 else 0) ∧
    (flushBufs o s).metrics.spansIngested = s.metrics.spansIngested ∧
    (flushBufs o s).metrics.memoryEvents = s.metrics.memoryEvents ∧
    (flushBufs o s).metrics.tracesIngested = s.metrics.tracesIngested ∧
    (flushBufs o s).traceQ = s.traceQ ∧
    (flushBufs o s).spanQ = s.spanQ ∧
    (flushBufs o s).memQ = s.memQ := by
  intro o s
  rcases hs : s.spanBuf with - | ⟨x, xs⟩ <;>
    by_cases hsf : o.spanBatchFails s.spanBuf <;>
    rcases hm : s.memBuf with - | ⟨y, ys⟩ <;>
    by_cases hmf : o.memBatchFails s.memBuf <;>
    simp_all [flushBufs, batchInsertSpans, batchInsertMemoryEvents]

/-- Claim C1 as amended: the ingestion counters are incremented when the
item is accepted: on a successful queue offer (at which point no store
write has happened yet, the store is unchanged and the item sits in the
queue) or on a successful direct insert when the queue is full; a failed
direct insert leaves the counter alone, and a failed later flush leaves
the already-incremented counters alone, so the counters count accepted
items, not successful commits. -/
theorem claim1_counters_amended :
    ∀ (o : Oracle) (s : IngState),
    (∀ t : Trace,
      (processMessage o s (.trace (.ok t))).1.metrics.tracesIngested =
        s.metrics.tracesIngested +
          (if s.traceQ.length < s.batchSize then 1
           else if o.traceFails t = true then 0 else 1) ∧
      (s.traceQ.length < s.batchSize →
        (processMessage o s (.trace (.ok t))).1.store = s.store ∧
        (processMessage o s (.trace (.ok t))).1.traceQ =
          s.traceQ ++ [t])) ∧
    (∀ sp : Span,
      (processMessage o s (.span (.ok sp))).1.metrics.spansIngested =
        s.metrics.spansIngested +
          (if s.spanQ.length < 2 * s.batchSize then 1
           else if o.spanFails sp = true then 0 else 1) ∧
      (s.spanQ.length < 2 * s.batchSize →
        (processMessage o s (.span (.ok sp))).1.store = s.store ∧
        (processMessage o s (.span (.ok sp))).1.spanQ =
          s.spanQ ++ [sp])) ∧
    (∀ ev : MemoryEvent,
      (processMessage o s (.memoryEvent (.ok ev))).1.metrics.memoryEvents =
        s.metrics.memoryEvents +
          (if s.memQ.length < 2 * s.batchSize then 1
           else if o.memFails ev = true then 0 else 1) ∧
      (s.memQ.length < 2 * s.batchSize →
        (processMessage o s (.memoryEvent (.ok ev))).1.store = s.store ∧
        (processMessage o s (.memoryEvent (.ok ev))).1.memQ =
          s.memQ ++ [ev])) ∧
    (∀ fs : FlushState,
      (flushBufs o fs).metrics.spansIngested = fs.metrics.spansIngested ∧
      (flushBufs o fs).metrics.memoryEvents = fs.metrics.memoryEvents ∧
      (flushBufs o fs).metrics.tracesIngested =
        fs.metrics.tracesIngested) := by
  intro o s
  refine ⟨?_, ?_, ?_, ?_⟩
  · intro t
    by_cases hq : s.traceQ.length < s.batchSize
    · simp [processMessage, hq]
    · cases hf : o.traceFails t <;>
        simp [processMessage, hq, hf, insertTrace]
  · intro sp
    by_cases hq : s.spanQ.length < 2 * s.batchSize
    · simp [processMessage, hq]
    · cases hf : o.spanFails sp <;>
        simp [processMessage, hq, hf, insertSpan]
  · intro ev
    by_cases hq : s.memQ.length < 2 * s.batchSize
    · simp [processMessage, hq]
    · cases hf : o.memFails ev <;>
        simp [processMessage, hq, hf, insertMemoryEvent]
  · intro fs
    rcases hs : fs.spanBuf with - | ⟨x, xs⟩ <;>
      by_cases hsf : o.spanBatchFails fs.spanBuf <;>
      rcases hm : fs.memBuf with - | ⟨y, ys⟩ <;>
      by_cases hmf : o.memBatchFails fs.memBuf <;>
      simp_all [flushBufs, batchInsertSpans, batchInsertMemoryEvents]

/-- c1oracle fails every transactional span batch. -/
def c1oracle : Oracle := { allOk with spanBatchFails := fun _ => true }

/-- c1span is the span whose flush will fail. -/
def c1span : Span :=
  ⟨"sp1", "t1", none, "LLM", "call", 2, 5, none, none, 1, 2, none, none,
   none, "ok", none⟩

/-- c1ing0 is a fresh ingester with batch size 2. -/
def c1ing0 : IngState :=
  { batchSize := 2, traceQ := [], spanQ := [], memQ := [],
    store := emptyStore, metrics := zeroMetrics }

/-- c1ing is the ingester after processing the span message: the span
was enqueued and SpansIngested is already 1. -/
def c1ing : IngState := (processMessage c1oracle c1ing0 (.span (.ok c1span))).1

/-- c1flush0 hands the queues, store and counters to the flush loop. -/
def c1flush0 : FlushState :=
  { batchSize := 2, traceQ := c1ing.traceQ, spanQ := c1ing.spanQ,
    memQ := c1ing.memQ, traceClosed := false, spanClosed := false,
    memClosed := false, ctxDone := false, spanBuf := [], memBuf := [],
    store := c1ing.store, metrics := c1ing.metrics }

/-- c1final runs the flush loop: the span is buffered, then the timer
flush fails. -/
def c1final : FlushState :=
  (flushRun c1oracle [FlushChoice.spanCh, FlushChoice.tick] c1flush0).1

/-- Counterexample for C1: after one span message and one failed flush,
SpansIngested is 1 while zero spans were committed to the store and the
span is gone from buffer and queue, so the counter was incremented
before (and without) a successful store write and does not equal the
count of successful commits. -/
theorem claim1_counters_counterexample :
    c1final.metrics.spansIngested = 1 ∧
    c1final.store.spans = [] ∧
    c1final.metrics.errorCount = 1 ∧
    c1final.spanBuf = [] ∧ c1final.spanQ = [] := by
  refine ⟨rfl, rfl, rfl, rfl, rfl⟩

/-- c2span is a span left undelivered in the span queue at shutdown. -/
def c2span : Span :=
  ⟨"sp2", "t1", none, "TOOL", "call", 3, 7, none, none, 0, 0, none, none,
   none, "ok", none⟩

/-- c2state is the flush-loop state right after Stop: the context is
cancelled, all three channels are closed, and one span is still queued
(Stop cancels the context before closing the channels, so both the
cancellation branch and the closed-channel branches are ready). -/
def c2state : FlushState :=
  { batchSize := 2, traceQ := [], spanQ := [c2span], memQ := [],
    traceClosed := true, spanClosed := true, memClosed := true,
    ctxDone := true, spanBuf := [], memBuf := [], store := emptyStore,
    metrics := zeroMetrics }

/-- c2stateNoCtx is the same state with the cancellation branch not yet
visible, isolating the closed-channel exit path. -/
def c2stateNoCtx : FlushState :=
  { c2state with ctxDone := false }

/-- Claim C2 refuted on the code: two legal select schedules under which
the flush loop returns while the span queue still holds an undelivered
item that was never written to the store.  Picking the ready
context-done case (first conjunct block) flushes the empty buffers and
returns at once; even without the cancellation, picking the closed and
empty trace channel (second block) flushes and returns.  In both final
states the loop has returned, the store holds no spans, and the span
queue still holds the item. -/
theorem claim2_shutdown_drain_bug :
    (flushRun allOk [FlushChoice.ctx] c2state).2 = true ∧
    (flushRun allOk [FlushChoice.ctx] c2state).1.store.spans = [] ∧
    (flushRun allOk [FlushChoice.ctx] c2state).1.spanQ = [c2span] ∧
    (flushRun allOk [FlushChoice.traceCh] c2stateNoCtx).2 = true ∧
    (flushRun allOk [FlushChoice.traceCh] c2stateNoCtx).1.store.spans
      = [] ∧
    (flushRun allOk [FlushChoice.traceCh] c2stateNoCtx).1.spanQ
      = [c2span] :=
  ⟨rfl, rfl, rfl, rfl, rfl, rfl⟩

theorem growthPoints_eq_map (base : Int) :
    ∀ (events : List MemoryEvent) (ks : Finset String),
    growthPoints base events ks =
      (List.range events.length).map (fun i =>
        ((((events.getD i default).timestamp - base : Int) : Rat) /
           1000000000,
         (((events.take (i + 1)).foldl growthStep ks).card : Rat))) := by
  intro events
  induction events with
  | nil => intro ks; simp [growthPoints]
  | cons ev evs ih =>
    intro ks
    rw [growthPoints, ih (growthStep ks ev)]
    rw [List.length_cons, List.range_succ_eq_map]
    rw [List.map_cons, List.map_map]
    simp [Function.comp]

/-- memTsLE orders memory events by timestamp, the sort key of
AnalyzeMemoryGrowth. -/
def memTsLE (a b : MemoryEvent) : Prop := a.timestamp ≤ b.timestamp

instance : DecidableRel memTsLE := fun a b =>
  inferInstanceAs (Decidable (a.timestamp ≤ b.timestamp))

/-- specSamples is the spec-side sample list: one sample per event,
pairing seconds since the first event with the size of the running key
set after that event. -/
def specSamples (events : List MemoryEvent) : List (Rat × Rat) :=
  (List.range events.length).map (fun i =>
    ((((events.getD i default).timestamp - events.headI.timestamp : Int) :
        Rat) / 1000000000,
     ((keySetOf (events.take (i + 1))).card : Rat)))

/-- Claim C7: with fewer than 2 memory events the report is all zeroes
with no regression; with at least 2 timestamp-sorted events the report
flags unbounded growth exactly when the regression slope over the
samples (one per event, key-set size keyed by namespace dot key with ADD
inserting, DELETE removing, UPDATE neutral) exceeds 0.1 and R squared
exceeds 0.7, and reports the thirty-minute prediction as the integer
part of max(0, slope times (last sample time + 1800) plus intercept). -/
theorem claim7_memory_growth :
    ∀ (fmtTs : Int → String) (tid : String) (events : List MemoryEvent),
    (events.length < 2 →
      analyzeMemoryGrowth fmtTs tid events =
        { traceId := tid, totalKeys := 0, totalEvents := events.length,
          growthRate := 0, slope := 0, intercept := 0, rSquared := 0,
          prediction30Min := 0, isUnbounded := false, keyGrowth := [] }) ∧
    (2 ≤ events.length →
      List.Sorted memTsLE events →
      (analyzeMemoryGrowth fmtTs tid events).isUnbounded =
        (decide ((1 : Rat) / 10 < (linearRegression (specSamples events)).1)
          &&
         decide ((7 : Rat) / 10 <
           (linearRegression (specSamples events)).2.2)) ∧
      (analyzeMemoryGrowth fmtTs tid events).prediction30Min =
        ⌊max 0 ((linearRegression (specSamples events)).1 *
          (((specSamples events).getLast?.getD (0, 0)).1 + 1800) +
          (linearRegression (specSamples events)).2.1)⌋ ∧
      (analyzeMemoryGrowth fmtTs tid events).totalEvents =
        (events.length : Int) ∧
      (analyzeMemoryGrowth fmtTs tid events).totalKeys =
        ((keySetOf events).card : Int)) := by
  intro fmtTs tid events
  constructor
  · intro h
    rw [analyzeMemoryGrowth, if_pos h]
  · intro hlen hsort
    have hns : ¬ events.length < 2 := by omega
    have hs : events.insertionSort (fun a b => a.timestamp ≤ b.timestamp)
        = events := List.Sorted.insertionSort_eq hsort
    simp only [analyzeMemoryGrowth, if_neg hns, hs,
      growthPoints_eq_map, specSamples, keySetOf]
    exact ⟨by trivial, by trivial, by trivial, by trivial⟩

/-- c7e1 is an ADD event at time zero. -/
def c7e1 : MemoryEvent :=
  ⟨"e1", "sp", 0, "ADD", "k1", none, some "v", "default"⟩

/-- c7e2 is an ADD event two seconds later. -/
def c7e2 : MemoryEvent :=
  ⟨"e2", "sp", 2000000000, "ADD", "k2", none, some "v", "default"⟩

/-- Witness for C7: two ADD events two seconds apart give samples
(0,1),(2,2), slope 1/2 and a perfect fit, so growth is flagged unbounded
and the thirty-minute prediction is 902 keys. -/
theorem claim7_memory_growth_witness :
    (analyzeMemoryGrowth (fun _ => "") "t" [c7e1, c7e2]).isUnbounded
      = true ∧
    (analyzeMemoryGrowth (fun _ => "") "t" [c7e1, c7e2]).prediction30Min
      = 902 := by
  obtain ⟨h1, h2, h3, h4⟩ :=
    (claim7_memory_growth (fun _ => "") "t" [c7e1, c7e2]).2 (by decide)
      (by simp [List.Sorted, memTsLE, c7e1, c7e2])
  have hpts : specSamples [c7e1, c7e2] = [(0, 1), (2, 2)] := by
    simp [specSamples, keySetOf, growthStep, c7e1, c7e2, List.range_succ]
    norm_num
  have hlr : linearRegression [((0 : Rat), (1 : Rat)), (2, 2)]
      = (1 / 2, 1, 1) := by
    norm_num [linearRegression, regStep, resStep]
  constructor
  · rw [h1, hpts, hlr]
    norm_num
  · rw [h2, hpts, hlr]
    simp only [List.getLast?]
    norm_num

theorem hot_foldl {α : Type} [LinearOrderedField α] (l : List Span) :
    ∀ a : α × α,
    l.foldl hotStep a =
      (a.1 + (l.map spanTotal).sum,
       a.2 + (l.map fun s => spanTotal s * spanTotal s).sum) := by
  induction l with
  | nil => intro a; simp
  | cons s ss ih =>
    intro a
    simp only [List.foldl_cons, ih, hotStep, List.map_cons, List.sum_cons,
      Prod.mk.injEq]
    exact ⟨by ring, by ring⟩

theorem sum_sub_sq {α : Type} [LinearOrderedField α] (c : α) :
    ∀ l : List α,
    (l.map fun x => (x - c) * (x - c)).sum =
      (l.map fun x => x * x).sum - 2 * c * l.sum +
        (l.length : α) * (c * c) := by
  intro l
  induction l with
  | nil => simp
  | cons x xs ih =>
    simp only [List.map_cons, List.sum_cons, ih, List.length_cons]
    push_cast
    ring

theorem sum_sq_nonneg {α β : Type} [LinearOrderedField α] (g : β → α) :
    ∀ l : List β, 0 ≤ (l.map fun x => g x * g x).sum := by
  intro l
  induction l with
  | nil => simp
  | cons x xs ih =>
    simp only [List.map_cons, List.sum_cons]
    exact add_nonneg (mul_self_nonneg _) ih

theorem variance_eq {α : Type} [LinearOrderedField α] (l : List α)
    (h : l ≠ []) :
    (l.map fun x => x * x).sum / (l.length : α) -
      (l.sum / (l.length : α)) * (l.sum / (l.length : α)) =
      (l.map fun x =>
        (x - l.sum / (l.length : α)) * (x - l.sum / (l.length : α))).sum /
        (l.length : α) := by
  have hn : (l.length : α) ≠ 0 := by
    have := List.length_pos.mpr h
    positivity
  rw [sum_sub_sq]
  field_simp
  ring

theorem filterMap_threshold {α : Type} [LinearOrderedField α]
    [FloorRing α] (mean stddev : α) :
    ∀ l : List Span,
    (l.filterMap fun s =>
        if 3 / 2 < zScoreOf mean stddev s then
          some (mkHotspot mean stddev s)
        else none) =
      (l.filter fun s => decide (3 / 2 < zScoreOf mean stddev s)).map
        (mkHotspot mean stddev) := by
  intro l
  induction l with
  | nil => simp
  | cons s ss ih =>
    by_cases h : 3 / 2 < zScoreOf mean stddev s
    · simp [List.filterMap_cons, List.filter_cons, h, ih]
    · simp [List.filterMap_cons, List.filter_cons, h, ih]

/-- specMean is the mean of the LLM span token totals. -/
def specMean {α : Type} [LinearOrderedField α] (l : List Span) : α :=
  (l.map spanTotal).sum / (l.length : α)

/-- specVar is the population variance of the token totals (two-pass
form, as the specification states it). -/
def specVar {α : Type} [LinearOrderedField α] (l : List Span) : α :=
  (l.map fun s =>
    (spanTotal s - specMean l) * (spanTotal s - specMean l)).sum /
    (l.length : α)

/-- specStddev is the population standard deviation of the token
totals. -/
def specStddev {α : Type} [LinearOrderedField α] (sqrtF : α → α)
    (l : List Span) : α :=
  sqrtF (specVar l)

/-- specZ is the spec-side Z-score of a span among the LLM spans. -/
def specZ {α : Type} [LinearOrderedField α] (sqrtF : α → α)
    (l : List Span) (s : Span) : α :=
  (spanTotal s - specMean l) / specStddev sqrtF l

theorem detect_spec {α : Type} [LinearOrderedField α] [FloorRing α]
    (sqrtF : α → α) (spans : List Span) :
    ((spans.filter isLLM).length < 2 →
      detectTokenHotspots sqrtF spans = []) ∧
    (2 ≤ (spans.filter isLLM).length →
      (specStddev sqrtF (spans.filter isLLM) = 0 →
        detectTokenHotspots sqrtF spans = []) ∧
      (specStddev sqrtF (spans.filter isLLM) ≠ 0 →
        (detectTokenHotspots sqrtF spans).Perm
          (((spans.filter isLLM).filter fun s =>
              decide (3 / 2 <
                specZ sqrtF (spans.filter isLLM) s)).map
            (mkHotspot (specMean (spans.filter isLLM))
              (specStddev sqrtF (spans.filter isLLM)))) ∧
        List.Sorted hotspotGE (detectTokenHotspots sqrtF spans))) := by
  constructor
  · intro h
    simp only [detectTokenHotspots, if_pos h]
  · intro hlen
    have hns : ¬ (spans.filter isLLM).length < 2 := by omega
    have hne : spans.filter isLLM ≠ [] := by
      intro h0
      rw [h0] at hlen
      simp at hlen
    have hkey : ((spans.filter isLLM).foldl hotStep ((0 : α), 0)) =
        (((spans.filter isLLM).map spanTotal).sum,
         ((spans.filter isLLM).map
           fun s => spanTotal s * spanTotal s).sum) := by
      rw [hot_foldl]
      simp
    have hmape : ∀ l : List Span,
        (l.map spanTotal).map (fun x : α => x * x) =
          l.map fun s => spanTotal s * spanTotal s := by
      intro l
      rw [List.map_map]
      rfl
    have hmaps : ∀ l : List Span, l ≠ [] →
        ((l.map (spanTotal (α := α))).map (fun x : α =>
          (x - (l.map (spanTotal (α := α))).sum / (l.length : α)) *
          (x - (l.map (spanTotal (α := α))).sum / (l.length : α))))
          = l.map (fun s =>
            (spanTotal s - specMean l) * (spanTotal s - specMean l)) := by
      intro l hl
      rw [List.map_map]
      simp only [specMean]
      rfl
    have hvar : ((spans.filter isLLM).map
        (fun s => spanTotal (α := α) s * spanTotal s)).sum /
          (((spans.filter isLLM).length : Nat) : α) -
        (((spans.filter isLLM).map (spanTotal (α := α))).sum /
          (((spans.filter isLLM).length : Nat) : α)) *
        (((spans.filter isLLM).map (spanTotal (α := α))).sum /
          (((spans.filter isLLM).length : Nat) : α)) =
        specVar (spans.filter isLLM) := by
      have h2 := variance_eq ((spans.filter isLLM).map (spanTotal (α := α)))
        (by simpa using hne)
      rw [hmape, List.length_map] at h2
      rw [h2, hmaps _ hne, specVar]
    constructor
    · intro h0
      have h0a : sqrtF (specVar (spans.filter isLLM)) = 0 := h0
      simp only [detectTokenHotspots, if_neg hns, hkey, hvar]
      rw [if_pos h0a]
    · intro h0
      have h0a : ¬ sqrtF (specVar (spans.filter isLLM)) = 0 := h0
      simp only [detectTokenHotspots, if_neg hns, hkey, hvar]
      rw [if_neg h0a, filterMap_threshold]
      constructor
      · exact List.perm_insertionSort hotspotGE _
      · exact List.sorted_insertionSort hotspotGE _

/-- Claim C5: token-hotspot detection over the LLM spans of a trace
returns the empty list when fewer than 2 LLM spans exist or when the
population standard deviation of the token totals is zero (which
happens exactly when the population variance is zero); otherwise the
result is a permutation of one hotspot per LLM span whose Z-score
(total minus mean over population standard deviation) exceeds 1.5,
each carrying the threshold severity and the Z-score rounded to two
decimals, and the result is sorted by Z-score descending. -/
theorem claim5_token_hotspots :
    ∀ spans : List Span,
    ((spans.filter isLLM).length < 2 →
      detectTokenHotspots Real.sqrt spans = []) ∧
    (2 ≤ (spans.filter isLLM).length →
      (specStddev Real.sqrt (spans.filter isLLM) = 0 ↔
        specVar (α := Real) (spans.filter isLLM) = 0) ∧
      (specStddev Real.sqrt (spans.filter isLLM) = 0 →
        detectTokenHotspots Real.sqrt spans = []) ∧
      (specStddev Real.sqrt (spans.filter isLLM) ≠ 0 →
        (detectTokenHotspots Real.sqrt spans).Perm
          (((spans.filter isLLM).filter fun s =>
              decide (3 / 2 <
                specZ Real.sqrt (spans.filter isLLM) s)).map
            (mkHotspot (specMean (spans.filter isLLM))
              (specStddev Real.sqrt (spans.filter isLLM)))) ∧
        List.Sorted hotspotGE (detectTokenHotspots Real.sqrt spans))) := by
  intro spans
  obtain ⟨h1, h2⟩ := detect_spec Real.sqrt spans
  refine ⟨h1, fun hlen => ⟨?_, (h2 hlen).1, (h2 hlen).2⟩⟩
  have hnn : (0 : Real) ≤ specVar (spans.filter isLLM) := by
    rw [specVar]
    exact div_nonneg
      (sum_sq_nonneg (fun s => spanTotal s - specMean (spans.filter isLLM)) _)
      (Nat.cast_nonneg _)
  rw [specStddev, Real.sqrt_eq_zero hnn]

/-- c5span0 is an LLM span with zero tokens. -/
def c5span0 (i : Nat) : Span :=
  ⟨"z" ++ toString i, "t", none, "LLM", "op", 0, 1, none, none, 0, 0,
   none, none, none, "ok", none⟩

/-- c5hot is the outlier LLM span with 100 total tokens. -/
def c5hot : Span :=
  ⟨"zh", "t", none, "LLM", "op", 0, 1, none, none, 60, 40, none, none,
   none, "ok", none⟩

/-- c5spans holds four zero-token spans and the outlier. -/
def c5spans : List Span :=
  [c5span0 0, c5span0 1, c5span0 2, c5span0 3, c5hot]

/-- Witness for C5: five LLM spans with token totals 0,0,0,0,100 have
mean 20 and population standard deviation 40; only the 100-token span
passes the 1.5 threshold, with Z-score 2 and severity low. -/
theorem claim5_token_hotspots_witness :
    detectTokenHotspots Real.sqrt c5spans =
      [mkHotspot (α := Real) 20 40 c5hot] ∧
    (mkHotspot (α := Real) 20 40 c5hot).zScore = 2 ∧
    (mkHotspot (α := Real) 20 40 c5hot).severity = "low" := by
  have hfilt : c5spans.filter isLLM = c5spans := by
    simp [c5spans, c5span0, c5hot, isLLM]
  have hmean : specMean (α := Real) c5spans = 20 := by
    simp [specMean, c5spans, c5span0, c5hot, spanTotal]
    norm_num
  have hvar : specVar (α := Real) c5spans = 1600 := by
    simp only [specVar, hmean]
    simp [c5spans, c5span0, c5hot, spanTotal]
    norm_num
  have hstd : specStddev Real.sqrt c5spans = 40 := by
    rw [specStddev, hvar, show (1600 : Real) = 40 ^ 2 by norm_num,
      Real.sqrt_sq (by norm_num)]
  have hzlow : ∀ i : Nat, specZ Real.sqrt c5spans (c5span0 i) = -(1 / 2) := by
    intro i
    rw [specZ, hmean, hstd]
    simp [spanTotal, c5span0]
    norm_num
  have hzhot : specZ Real.sqrt c5spans c5hot = 2 := by
    rw [specZ, hmean, hstd]
    simp [spanTotal, c5hot]
    norm_num
  have hzof : zScoreOf (α := Real) 20 40 c5hot = 2 := by
    simp [zScoreOf, spanTotal, c5hot]
    norm_num
  obtain ⟨hiff, hzero, hrest⟩ :=
    (claim5_token_hotspots c5spans).2 (by rw [hfilt]; simp [c5spans])
  rw [hfilt] at hrest
  obtain ⟨hperm, hsorted⟩ := hrest (by rw [hstd]; norm_num)
  have hc : ∀ i : Nat,
      (decide ((3 : Real) / 2 < specZ Real.sqrt c5spans (c5span0 i)))
        = false := fun i =>
    decide_eq_false (by rw [hzlow]; norm_num)
  have hch : (decide ((3 : Real) / 2 < specZ Real.sqrt c5spans c5hot))
      = true :=
    decide_eq_true (by rw [hzhot]; norm_num)
  have hlist : (c5spans.filter fun s =>
      decide ((3 : Real) / 2 < specZ Real.sqrt c5spans s)) = [c5hot] := by
    show (([c5span0 0, c5span0 1, c5span0 2, c5span0 3,
      c5hot] : List Span).filter fun s =>
        decide ((3 : Real) / 2 < specZ Real.sqrt c5spans s)) = [c5hot]
    simp only [List.filter_cons, List.filter_nil, hc, hch]
    simp
  rw [hlist, hmean, hstd] at hperm
  refine ⟨List.perm_singleton.mp ?_, ?_, ?_⟩
  · simpa using hperm
  · rw [mkHotspot]
    simp only [hzof, roundTo]
    rw [show (2 : Real) * 100 = 200 by norm_num]
    rw [goRound_nonneg_eq (200 : Real) 200 (by norm_num) (by norm_num)
      (by norm_num)]
    norm_num
  · rw [mkHotspot]
    simp only [hzof, severityOf]
    norm_num

end Oculo
